import Mathlib

/-!
Verification development for the ReactBackend blogging API
(routes/comments.js, the posts router, and the admin router).

The relational store is embedded as lists of rows; SQL statements become
list operations: SELECT ... WHERE becomes List.filter / List.any,
DELETE ... WHERE becomes List.filter with the negated predicate followed
by the closure of the schema's self-referential ON DELETE CASCADE,
UPDATE ... WHERE becomes List.map with a conditional row update,
INSERT becomes List append.  HTTP handlers become pure functions from a
store (plus the request data extracted by the framework) to a pair of the
new store and the HTTP status code.  MySQL AUTO_INCREMENT id allocation is
an external service, so freshly allocated ids enter the model as an
explicit argument (with freshness stated as a hypothesis where needed).
-/

/-- Row of the posts table; only the columns the modelled handlers read or
write are kept (id, author_id, status, views, likes); display columns such
as title or excerpt are never inspected by these handlers. -/
structure Post where
  id : Int
  author_id : Int
  status : String
  views : Int
  likes : Int
deriving DecidableEq, Repr

/-- Row of the comments table: id, content, post_id, user_id and the
nullable self-referencing parent_id column. -/
structure Comment where
  id : Int
  content : String
  post_id : Int
  user_id : Int
  parent_id : Option Int
deriving DecidableEq, Repr

/-- Row of the likes join table: the composite (user_id, post_id) pair. -/
structure LikeRow where
  user_id : Int
  post_id : Int
deriving DecidableEq, Repr

/-- The relational store: the three tables the modelled handlers touch. -/
structure Store where
  posts : List Post
  comments : List Comment
  likes : List LikeRow
deriving DecidableEq, Repr

/-- Rows of live whose parent_id references a row already deleted: the
next wave of the store's self-referential ON DELETE CASCADE on
comments.parent_id. -/
def fkFrontier (dead live : List Comment) : List Comment :=
  live.filter (fun c => dead.any (fun d => decide (c.parent_id = some d.id)))

/-- Rows of live whose parent_id references no row already deleted: the
rows the current cascade wave keeps. -/
def fkKeep (dead live : List Comment) : List Comment :=
  live.filter (fun c =>
    !(dead.any (fun d => decide (c.parent_id = some d.id))))

/-- Closure of the store's self-referential ON DELETE CASCADE: starting
from the rows deleted by the SQL statement (dead), repeatedly deletes
every live row whose parent_id references a deleted row, until no row is
left to cascade to.  The fuel bounds the number of waves; each productive
wave removes at least one live row, so fuel equal to the table size
reaches the fixed point. -/
def fkClose : Nat → List Comment → List Comment → List Comment
  | 0, live, _ => live
  | Nat.succ fuel, live, dead =>
    if (fkFrontier dead live).isEmpty then live
    else fkClose fuel (fkKeep dead live) (fkFrontier dead live)

/-- Embeds the store-level effect of the delete shared by
DELETE /comments/:id and DELETE /admin/comments/:id.  The SQL statement
DELETE FROM comments WHERE id = ? OR parent_id = ?  (both placeholders
bound to the same target id) deletes the target and its direct replies;
the schema created by config/database.js (inside deploy.sh) declares
FOREIGN KEY (parent_id) REFERENCES comments(id) ON DELETE CASCADE on the
comments table, so the store then recursively deletes every comment whose
parent was deleted.  The result is the rows surviving the statement and
the cascade closure. -/
def cascadeDelete (cid : Int) (comments : List Comment) : List Comment :=
  fkClose comments.length
    (comments.filter (fun c => decide (c.id ≠ cid ∧ c.parent_id ≠ some cid)))
    (comments.filter (fun c => decide (c.id = cid ∨ c.parent_id = some cid)))

/-- Embeds DELETE /comments/:id (routes/comments.js lines 161-186).
First the ownership query
SELECT * FROM comments WHERE id = ? AND (user_id = ? OR ? = "admin")
with the third placeholder bound to the requester role; an empty result
yields 404 and no mutation, otherwise the cascading delete runs and the
handler answers 200. -/
def deleteComment (uid : Int) (role : String) (cid : Int) (s : Store) :
    Store × Nat :=
  if s.comments.any (fun c =>
      decide (c.id = cid ∧ (c.user_id = uid ∨ role = "admin"))) then
    ({ s with comments := cascadeDelete cid s.comments }, 200)
  else
    (s, 404)

/-- Embeds DELETE /admin/comments/:id (admin router lines 313-324): the
handler runs the cascading delete with no prior existence or ownership
query (the adminAuth middleware has already admitted the caller) and
always answers 200 with the success message. -/
def adminDeleteComment (cid : Int) (s : Store) : Store × Nat :=
  ({ s with comments := cascadeDelete cid s.comments }, 200)

/-- Embeds PUT /comments/:id (routes/comments.js lines 126-158).
Validation (body content notEmpty) answers 400 before any store access;
then SELECT * FROM comments WHERE id = ? AND user_id = ? gates the update
(an empty result yields 404 — the requester role is never consulted);
on success UPDATE comments SET content = ? WHERE id = ? runs and the
handler answers 200. -/
def updateComment (uid : Int) (cid : Int) (content : String) (s : Store) :
    Store × Nat :=
  if content.isEmpty then
    (s, 400)
  else if s.comments.any (fun c => decide (c.id = cid ∧ c.user_id = uid)) then
    ({ s with comments := s.comments.map (fun c =>
        if c.id = cid then { c with content := content } else c) }, 200)
  else
    (s, 404)

/-- JavaScript truthiness of the validated optional integer parent_id:
the body field is absent (falsy) or an integer, and the integer 0 is
falsy, so the source line if (parent_id) takes the then-branch exactly
when the field holds a nonzero integer. -/
def optTruthy (v : Option Int) : Bool :=
  match v with
  | some p => decide (p ≠ 0)
  | none => false

/-- Embeds the insert expression parent_id || null of POST /comments:
a truthy parent_id is stored as given, otherwise NULL is stored. -/
def storedParent (v : Option Int) : Option Int :=
  if optTruthy v then v else none

/-- Embeds POST /comments (routes/comments.js lines 67-123).
Validation (content notEmpty; post_id and the optional parent_id already
coerced to integers by the isInt validators) answers 400 before any store
access.  Then SELECT * FROM posts WHERE id = ? AND status = "published"
gates on the target post (404 on empty result, identical for an absent
and for a draft post); if parent_id is truthy,
SELECT * FROM comments WHERE id = ? AND post_id = ? gates on the parent
(404 on empty result); finally INSERT INTO comments stores the row with
parent_id || null and the handler answers 201. -/
def createComment (uid : Int) (content : String) (post_id : Int)
    (parent_id : Option Int) (newId : Int) (s : Store) : Store × Nat :=
  if content.isEmpty then
    (s, 400)
  else if !(s.posts.any (fun p =>
      decide (p.id = post_id ∧ p.status = "published"))) then
    (s, 404)
  else if optTruthy parent_id &&
      !(s.comments.any (fun c =>
        decide (some c.id = parent_id ∧ c.post_id = post_id))) then
    (s, 404)
  else
    ({ s with comments := s.comments ++
        [⟨newId, content, post_id, uid, storedParent parent_id⟩] }, 201)

/-- SELECT * FROM likes WHERE user_id = ? AND post_id = ? is nonempty:
the current liked state of the (user, post) pair. -/
def likedB (s : Store) (uid pid : Int) : Bool :=
  s.likes.any (fun l => decide (l.user_id = uid ∧ l.post_id = pid))

/-- Embeds POST /posts/:id/like (posts router lines 235-272).
If the existence check finds a like row, the handler deletes the rows of
the pair and runs UPDATE posts SET likes = likes - 1 WHERE id = ?,
reporting liked: false; otherwise it inserts the pair and runs
UPDATE posts SET likes = likes + 1 WHERE id = ?, reporting liked: true. -/
def toggleLike (uid pid : Int) (s : Store) : Store × Bool :=
  if likedB s uid pid then
    ({ s with
        likes := s.likes.filter (fun l =>
          decide (¬(l.user_id = uid ∧ l.post_id = pid))),
        posts := s.posts.map (fun p =>
          if p.id = pid then { p with likes := p.likes - 1 } else p) }, false)
  else
    ({ s with
        likes := s.likes ++ [⟨uid, pid⟩],
        posts := s.posts.map (fun p =>
          if p.id = pid then { p with likes := p.likes + 1 } else p) }, true)

/-- Embeds GET /posts/:id (posts router lines 94-118).  The handler takes
no caller identity at all (the route has no auth middleware).  It first
runs UPDATE posts SET views = views + 1 WHERE id = ? unconditionally, and
only afterwards runs the published-post select, answering 404 when that
select is empty and 200 otherwise. -/
def getPost (pid : Int) (s : Store) : Store × Nat :=
  let s1 : Store := { s with posts := s.posts.map (fun p =>
      if p.id = pid then { p with views := p.views + 1 } else p) }
  if s1.posts.any (fun p => decide (p.id = pid ∧ p.status = "published")) then
    (s1, 200)
  else
    (s1, 404)

/-- Embeds Math.ceil(total / limit) on integer inputs: the ceiling of the
exact rational quotient, computed with floor division as the negated floor
of the negated dividend.  This agrees with the JavaScript expression for
every nonzero limit (the handlers divide a row count by the parsed limit;
a limit of 0 makes the JavaScript value non-finite and lies outside this
integer model). -/
def jsCeilDiv (t l : Int) : Int :=
  -(Int.fdiv (-t) l)

/-- Pagination metadata returned by every list endpoint. -/
structure Pagination where
  current : Int
  total : Int
  hasNext : Bool
  hasPrev : Bool
deriving DecidableEq, Repr

/-- Embeds the pagination object built identically by every list endpoint
(GET /comments/post/:postId, GET /comments/user/:userId, GET /posts,
GET /admin/users, GET /admin/posts, GET /admin/comments, ...):
current: page, total: Math.ceil(total / limit),
hasNext: page * limit < total, hasPrev: page > 1. -/
def paginate (page limit total : Int) : Pagination :=
  { current := page
    total := jsCeilDiv total limit
    hasNext := decide (page * limit < total)
    hasPrev := decide (1 < page) }

/-- Embeds the offset computation const offset = (page - 1) * limit shared
by every list endpoint. -/
def pageOffset (page limit : Int) : Int :=
  (page - 1) * limit

/-- Embeds parseInt(req.query.x) || d: the parse result is an integer or
NaN (none); NaN and the integer 0 are falsy, so both fall back to the
endpoint default d, and every nonzero integer is kept as given. -/
def jsOrDefault (v : Option Int) (d : Int) : Int :=
  match v with
  | none => d
  | some n => if n = 0 then d else n

/-- The no-cross-post-nesting invariant of the comments table: whenever a
comment designates an existing comment as its parent, that parent belongs
to the same post. -/
def noCrossPost (comments : List Comment) : Prop :=
  ∀ c ∈ comments, ∀ p ∈ comments, c.parent_id = some p.id →
    p.post_id = c.post_id

instance noCrossPost.decidable (comments : List Comment) :
    Decidable (noCrossPost comments) := by
  unfold noCrossPost
  infer_instance

/-- The cascade closure only ever removes rows: every survivor was
live when the closure started. -/
theorem fkClose_subset (fuel : Nat) (live dead : List Comment) :
    ∀ c ∈ fkClose fuel live dead, c ∈ live := by
  induction fuel generalizing live dead with
  | zero =>
    intro c hc
    exact hc
  | succ n ih =>
    intro c hc
    simp only [fkClose] at hc
    split at hc
    · exact hc
    · exact (List.mem_filter.mp (ih _ _ c hc)).1

/-- Every survivor of the cascading delete was present before and matches
neither disjunct of the WHERE clause: the target row and all its direct
children are removed and no rows are added. -/
theorem mem_cascadeDelete (cid : Int) (comments : List Comment) :
    ∀ c ∈ cascadeDelete cid comments,
      c ∈ comments ∧ c.id ≠ cid ∧ c.parent_id ≠ some cid := by
  intro c hc
  have h0 := fkClose_subset _ _ _ c hc
  rw [List.mem_filter] at h0
  refine ⟨h0.1, ?_⟩
  simpa using h0.2

/-- Claim C1: for every authorized delete of a comment (the ownership
query finds a row with the target id whose author is the requester or
whose requester has role admin), the handler answers 200, and the delete
removes the target and every comment whose parent_id equals the target id
in one logical operation: afterwards no comment carries the target id, no
comment has the target as parent, and every surviving comment was present
before, so partial deletion (target removed, direct children remaining)
never occurs. -/
theorem deleteComment_cascades (uid : Int) (role : String) (cid : Int)
    (s : Store)
    (hauth : ∃ c ∈ s.comments, c.id = cid ∧ (c.user_id = uid ∨ role = "admin")) :
    (deleteComment uid role cid s).2 = 200 ∧
    ∀ c ∈ (deleteComment uid role cid s).1.comments,
      c ∈ s.comments ∧ c.id ≠ cid ∧ c.parent_id ≠ some cid := by
  have hany : s.comments.any (fun c =>
      decide (c.id = cid ∧ (c.user_id = uid ∨ role = "admin"))) = true := by
    rw [List.any_eq_true]
    obtain ⟨c, hc, hprop⟩ := hauth
    exact ⟨c, hc, by simpa using hprop⟩
  have key : deleteComment uid role cid s =
      ({ s with comments := cascadeDelete cid s.comments }, 200) := by
    unfold deleteComment
    rw [hany]
    simp
  rw [key]
  exact ⟨rfl, fun c hc => mem_cascadeDelete cid s.comments c hc⟩

/-- Witness for C1: the author of comment 1 deletes it from a store that
holds the comment, a direct reply and an unrelated comment. -/
theorem deleteComment_cascades_witness :
    (deleteComment 1 "user" 1
      ⟨[], [⟨1, "a", 1, 1, none⟩, ⟨2, "b", 1, 2, some 1⟩, ⟨3, "c", 1, 2, none⟩],
       []⟩).2 = 200 :=
  (deleteComment_cascades 1 "user" 1
    ⟨[], [⟨1, "a", 1, 1, none⟩, ⟨2, "b", 1, 2, some 1⟩, ⟨3, "c", 1, 2, none⟩],
     []⟩ (by decide)).1

/-- Claim C10: the admin comment-delete handler performs no existence
check: for every target id it issues the cascading delete and answers 200
with the success message (in particular also when no comment with that id
exists, so it never answers 404); afterwards no comment carries the
target id or has the target as parent, and no rows were added. -/
theorem adminDeleteComment_unconditional (cid : Int) (s : Store) :
    (adminDeleteComment cid s).2 = 200 ∧
    ((¬ ∃ c ∈ s.comments, c.id = cid) → (adminDeleteComment cid s).2 = 200) ∧
    ((adminDeleteComment cid s).1.comments = cascadeDelete cid s.comments) ∧
    ∀ c ∈ (adminDeleteComment cid s).1.comments,
      c ∈ s.comments ∧ c.id ≠ cid ∧ c.parent_id ≠ some cid := by
  exact ⟨rfl, fun _ => rfl, rfl,
    fun c hc => mem_cascadeDelete cid s.comments c hc⟩

/-- Witness for C10: deleting a comment id from an empty store (so the
comment certainly does not exist) still answers 200. -/
theorem adminDeleteComment_unconditional_witness :
    (adminDeleteComment 42 ⟨[], [], []⟩).2 = 200 :=
  (adminDeleteComment_unconditional 42 ⟨[], [], []⟩).2.1 (by decide)

/-- Counterexample for C9: comment 1 has direct reply 2, which has
reply-to-reply 3.  Deleting comment 1 deletes row 3 as well — the
statement removes rows 1 and 2 and the store's self-referential ON DELETE
CASCADE on parent_id then removes row 3 — so the reply-to-reply neither
survives nor retains a dangling parent reference. -/
theorem cascadeDelete_grandchild_deleted :
    (⟨3, "g", 1, 1, some 2⟩ : Comment) ∉ cascadeDelete 1
      [⟨1, "a", 1, 1, none⟩, ⟨2, "r", 1, 1, some 1⟩,
       ⟨3, "g", 1, 1, some 2⟩] := by decide

/-- Claim C9 (amended): the application's DELETE statement reaches only
one level (target and direct replies), but the schema's self-referential
FOREIGN KEY (parent_id) REFERENCES comments(id) ON DELETE CASCADE makes
the store cascade further: whenever a direct reply R of the deleted
comment exists, R is deleted and no surviving comment references R as
parent — in particular every reply-to-reply of R is deleted too, and no
dangling parent_id to R remains. -/
theorem cascadeDelete_deep (cid : Int) (comments : List Comment)
    (R : Comment)
    (hR : R ∈ comments) (hRparent : R.parent_id = some cid) :
    R ∉ cascadeDelete cid comments ∧
    ∀ c ∈ cascadeDelete cid comments, c.parent_id ≠ some R.id := by
  constructor
  · intro hmem
    exact (mem_cascadeDelete cid comments R hmem).2.2 hRparent
  · intro c hc hcp
    cases hlen : comments.length with
    | zero =>
      rw [List.length_eq_zero] at hlen
      rw [hlen] at hR
      exact absurd hR (List.not_mem_nil R)
    | succ n =>
      have hc' := hc
      unfold cascadeDelete at hc'
      rw [hlen] at hc'
      have hRM0 : R ∈ comments.filter (fun x =>
          decide (x.id = cid ∨ x.parent_id = some cid)) := by
        rw [List.mem_filter]
        exact ⟨hR, by simp [hRparent]⟩
      have hctest : ((comments.filter (fun x =>
          decide (x.id = cid ∨ x.parent_id = some cid))).any
          (fun d => decide (c.parent_id = some d.id))) = true := by
        rw [List.any_eq_true]
        exact ⟨R, hRM0, by simp [hcp]⟩
      by_cases hc0 : c ∈ comments.filter (fun x =>
          decide (x.id ≠ cid ∧ x.parent_id ≠ some cid))
      · simp only [fkClose] at hc'
        have hcnew : c ∈ fkFrontier
            (comments.filter (fun x =>
              decide (x.id = cid ∨ x.parent_id = some cid)))
            (comments.filter (fun x =>
              decide (x.id ≠ cid ∧ x.parent_id ≠ some cid))) := by
          rw [fkFrontier, List.mem_filter]
          exact ⟨hc0, hctest⟩
        split at hc'
        · next hemp =>
          rw [List.isEmpty_iff] at hemp
          rw [hemp] at hcnew
          exact absurd hcnew (List.not_mem_nil c)
        · have hkeep := fkClose_subset _ _ _ c hc'
          rw [fkKeep, List.mem_filter, hctest] at hkeep
          simpa using hkeep.2
      · exact hc0 (fkClose_subset _ _ _ c hc')

/-- Witness for C9 (amended): deleting comment 1 removes the direct reply
2 (and, through the store cascade, the reply-to-reply 3). -/
theorem cascadeDelete_deep_witness :
    (⟨2, "r", 1, 1, some 1⟩ : Comment) ∉ cascadeDelete 1
      [⟨1, "a", 1, 1, none⟩, ⟨2, "r", 1, 1, some 1⟩,
       ⟨3, "g", 1, 1, some 2⟩] :=
  (cascadeDelete_deep 1
    [⟨1, "a", 1, 1, none⟩, ⟨2, "r", 1, 1, some 1⟩, ⟨3, "g", 1, 1, some 2⟩]
    ⟨2, "r", 1, 1, some 1⟩ (by decide) (by decide)).1

/-- Claim C4: every list endpoint builds its pagination from the shared
formulas: offset (page - 1) * limit, current = page,
hasNext iff page * limit < total, hasPrev iff page > 1, and totalPages is
the ceiling of total / limit (characterised for a positive limit as the
integer whose multiples bracket the total); in particular for 25 rows and
limit 10, page 1 reports hasNext and not hasPrev, page 3 reports hasPrev
and not hasNext, and both report 3 total pages. -/
theorem paginate_contract (p l t : Int) (hp : 1 ≤ p) (hl : 0 < l) :
    pageOffset p l = (p - 1) * l ∧
    (paginate p l t).current = p ∧
    ((paginate p l t).hasNext = true ↔ p * l < t) ∧
    ((paginate p l t).hasPrev = true ↔ 1 < p) ∧
    t ≤ (paginate p l t).total * l ∧
    ((paginate p l t).total - 1) * l < t ∧
    paginate 1 10 25 = ⟨1, 3, true, false⟩ ∧
    paginate 3 10 25 = ⟨3, 3, false, true⟩ := by
  have hfd : Int.fdiv (-t) l = (-t) / l := Int.fdiv_eq_ediv _ (le_of_lt hl)
  have hdm : l * ((-t) / l) + (-t) % l = -t := Int.ediv_add_emod _ _
  have h0 : 0 ≤ (-t) % l := Int.emod_nonneg _ (ne_of_gt hl)
  have h1 : (-t) % l < l := Int.emod_lt_of_pos _ hl
  refine ⟨rfl, rfl, by simp [paginate], by simp [paginate], ?_, ?_,
    by decide, by decide⟩
  · show t ≤ -(Int.fdiv (-t) l) * l
    rw [hfd]
    nlinarith [hdm, h0]
  · show (-(Int.fdiv (-t) l) - 1) * l < t
    rw [hfd]
    nlinarith [hdm, h1]

/-- Witness for C4 at page 2, limit 10, total 25. -/
theorem paginate_contract_witness :
    (25 : Int) ≤ (paginate 2 10 25).total * 10 :=
  (paginate_contract 2 10 25 (by decide) (by decide)).2.2.2.2.1

/-- Counterexample for C8: a supplied page of 0 is not accepted as given —
parseInt yields the falsy integer 0, so the fallback replaces it with the
default 1. -/
theorem jsOrDefault_zero_not_kept :
    jsOrDefault (some 0) 1 = 1 ∧ (1 : Int) ≠ 0 := by decide

/-- Claim C8 (amended): page and limit are coerced to integers; a missing
or non-numeric value (NaN) falls back to the endpoint default, and so
does a supplied 0, because the falsy-coalescing fallback treats 0 like a
missing value; every nonzero supplied integer — including negative pages
and limits — is accepted as given with no bounds validation. -/
theorem jsOrDefault_contract (d : Int) :
    jsOrDefault none d = d ∧
    jsOrDefault (some 0) d = d ∧
    ∀ n : Int, n ≠ 0 → jsOrDefault (some n) d = n := by
  refine ⟨rfl, by simp [jsOrDefault], fun n hn => by simp [jsOrDefault, hn]⟩

/-- Witness for C8: a negative limit of -5 is accepted as given. -/
theorem jsOrDefault_contract_witness :
    jsOrDefault (some (-5)) 20 = -5 :=
  (jsOrDefault_contract 20).2.2 (-5) (by decide)

/-- Counterexample for C2: user 2 sends an update for comment 1, which is
owned by user 1, with empty content.  The handler answers 400 (the
validation layer runs before the ownership query), not the 404 the claim
asserts for every non-author update request. -/
theorem updateComment_nonauthor_empty_400 :
    (updateComment 2 1 "" ⟨[], [⟨1, "old", 1, 1, none⟩], []⟩).2 = 400 ∧
    (400 : Nat) ≠ 404 ∧
    (2 : Int) ≠ 1 := by decide

/-- Claim C2 (amended): when the requester is not the comment author
(role is never consulted, so admin is no bypass), the store is unchanged
and the handler answers 404 — except that an empty content body answers
400 instead, because validation precedes the ownership query; the
handler answers 200 only when the requester authored the comment and the
content is non-empty, and in that case it writes the new content to every
comment row carrying the target id. -/
theorem updateComment_contract (uid cid : Int) (content : String)
    (s : Store) :
    ((¬ ∃ c ∈ s.comments, c.id = cid ∧ c.user_id = uid) →
      (updateComment uid cid content s).1 = s ∧
      (updateComment uid cid content s).2 =
        (if content.isEmpty then 400 else 404)) ∧
    ((updateComment uid cid content s).2 = 200 →
      content.isEmpty = false ∧
      ∃ c ∈ s.comments, c.id = cid ∧ c.user_id = uid) ∧
    (content.isEmpty = false →
      (∃ c ∈ s.comments, c.id = cid ∧ c.user_id = uid) →
      (updateComment uid cid content s).2 = 200 ∧
      (updateComment uid cid content s).1.comments = s.comments.map (fun c =>
        if c.id = cid then { c with content := content } else c)) := by
  have hiff : (s.comments.any (fun c =>
      decide (c.id = cid ∧ c.user_id = uid)) = true) ↔
      ∃ c ∈ s.comments, c.id = cid ∧ c.user_id = uid := by
    simp [List.any_eq_true]
  refine ⟨?_, ?_, ?_⟩
  · intro hne
    have hfalse : s.comments.any (fun c =>
        decide (c.id = cid ∧ c.user_id = uid)) = false := by
      rw [Bool.eq_false_iff]
      exact fun h => hne (hiff.mp h)
    cases hemp : content.isEmpty with
    | true =>
      unfold updateComment
      rw [hemp]
      simp
    | false =>
      unfold updateComment
      rw [hemp, hfalse]
      simp
  · intro h200
    cases hemp : content.isEmpty with
    | true =>
      exfalso
      unfold updateComment at h200
      rw [hemp] at h200
      simp at h200
    | false =>
      cases hany : s.comments.any (fun c =>
          decide (c.id = cid ∧ c.user_id = uid)) with
      | true => exact ⟨rfl, hiff.mp hany⟩
      | false =>
        exfalso
        unfold updateComment at h200
        rw [hemp, hany] at h200
        simp at h200
  · intro hemp hex
    have hany : s.comments.any (fun c =>
        decide (c.id = cid ∧ c.user_id = uid)) = true := hiff.mpr hex
    unfold updateComment
    rw [hemp, hany]
    simp

/-- Witness for C2 (amended): a non-author update with non-empty content
leaves the store unchanged and answers 404. -/
theorem updateComment_contract_witness :
    (updateComment 2 1 "new" ⟨[], [⟨1, "old", 1, 1, none⟩], []⟩).1 =
      ⟨[], [⟨1, "old", 1, 1, none⟩], []⟩ ∧
    (updateComment 2 1 "new" ⟨[], [⟨1, "old", 1, 1, none⟩], []⟩).2 =
      (if ("new").isEmpty then 400 else 404) :=
  (updateComment_contract 2 1 "new" ⟨[], [⟨1, "old", 1, 1, none⟩], []⟩).1
    (by decide)

/-- Counterexample for C3: a parent id of 0 is supplied for a published
post with no comments at all, yet the handler answers 201 and persists a
row instead of the 404 the claim asserts whenever the given parent id
does not exist: the integer 0 is falsy, so if (parent_id) skips the
parent check and parent_id || null stores NULL. -/
theorem createComment_zero_parent :
    (createComment 7 "hi" 1 (some 0) 1
      ⟨[⟨1, 1, "published", 0, 0⟩], [], []⟩).2 = 201 ∧
    (201 : Nat) ≠ 404 ∧
    (createComment 7 "hi" 1 (some 0) 1
      ⟨[⟨1, 1, "published", 0, 0⟩], [], []⟩).1.comments ≠ [] := by decide

/-- Claim C3 (amended): create-comment answers 400 with no store write
when the content is empty; 404 with no store write when no published post
carries the target id (the same answer whether the post is absent or a
draft); 404 with no store write when a nonzero parent id is given that no
comment row matches together with the target post id; it persists the
new row and answers 201 otherwise — where a parent id of 0 counts as not
given (JavaScript falsiness) and is stored as NULL; and no comment row is
ever created on a non-201 path. -/
theorem createComment_contract (uid : Int) (content : String)
    (post_id : Int) (parent_id : Option Int) (newId : Int) (s : Store) :
    (content.isEmpty = true →
      createComment uid content post_id parent_id newId s = (s, 400)) ∧
    (content.isEmpty = false →
      (¬ ∃ p ∈ s.posts, p.id = post_id ∧ p.status = "published") →
      createComment uid content post_id parent_id newId s = (s, 404)) ∧
    (content.isEmpty = false →
      (∃ p ∈ s.posts, p.id = post_id ∧ p.status = "published") →
      ∀ q : Int, parent_id = some q → q ≠ 0 →
      (¬ ∃ c ∈ s.comments, c.id = q ∧ c.post_id = post_id) →
      createComment uid content post_id parent_id newId s = (s, 404)) ∧
    (content.isEmpty = false →
      (∃ p ∈ s.posts, p.id = post_id ∧ p.status = "published") →
      (optTruthy parent_id = false ∨
        ∃ q : Int, parent_id = some q ∧ q ≠ 0 ∧
          ∃ c ∈ s.comments, c.id = q ∧ c.post_id = post_id) →
      createComment uid content post_id parent_id newId s =
        ({ s with comments := s.comments ++
            [⟨newId, content, post_id, uid, storedParent parent_id⟩] },
         201)) ∧
    ((createComment uid content post_id parent_id newId s).2 ≠ 201 →
      (createComment uid content post_id parent_id newId s).1 = s) := by
  have hpost_iff : (s.posts.any (fun p =>
      decide (p.id = post_id ∧ p.status = "published")) = true) ↔
      ∃ p ∈ s.posts, p.id = post_id ∧ p.status = "published" := by
    simp [List.any_eq_true]
  refine ⟨?_, ?_, ?_, ?_, ?_⟩
  · intro hemp
    unfold createComment
    rw [hemp]
    simp
  · intro hemp hnp
    have hfalse : s.posts.any (fun p =>
        decide (p.id = post_id ∧ p.status = "published")) = false := by
      rw [Bool.eq_false_iff]
      exact fun h => hnp (hpost_iff.mp h)
    unfold createComment
    rw [hemp, hfalse]
    simp
  · intro hemp hp q hq hq0 hnc
    have hpost : s.posts.any (fun p =>
        decide (p.id = post_id ∧ p.status = "published")) = true :=
      hpost_iff.mpr hp
    have htru : optTruthy parent_id = true := by
      rw [hq]
      simp [optTruthy, hq0]
    have hcf : s.comments.any (fun c =>
        decide (some c.id = parent_id ∧ c.post_id = post_id)) = false := by
      rw [Bool.eq_false_iff]
      intro h
      rw [List.any_eq_true] at h
      obtain ⟨c, hc, hcp⟩ := h
      rw [hq] at hcp
      simp at hcp
      exact hnc ⟨c, hc, hcp⟩
    unfold createComment
    rw [hemp, hpost, htru, hcf]
    simp
  · intro hemp hp hok
    have hpost : s.posts.any (fun p =>
        decide (p.id = post_id ∧ p.status = "published")) = true :=
      hpost_iff.mpr hp
    have hgate : (optTruthy parent_id &&
        !(s.comments.any (fun c =>
          decide (some c.id = parent_id ∧ c.post_id = post_id)))) = false := by
      rcases hok with htru | ⟨q, hq, hq0, c, hc, hcq⟩
      · rw [htru]
        rfl
      · have : s.comments.any (fun c =>
            decide (some c.id = parent_id ∧ c.post_id = post_id)) = true := by
          rw [List.any_eq_true]
          refine ⟨c, hc, ?_⟩
          rw [hq]
          simp [hcq.1, hcq.2]
        rw [this]
        simp
    unfold createComment
    rw [hemp, hpost, hgate]
    simp
  · unfold createComment
    split
    · intro _
      rfl
    · split
      · intro _
        rfl
      · split
        · intro _
          rfl
        · intro h
          exact absurd rfl h

/-- Witness for C3 (amended): a valid top-level comment on a published
post is persisted with a NULL parent and answered 201. -/
theorem createComment_contract_witness :
    createComment 7 "hi" 1 none 1 ⟨[⟨1, 1, "published", 0, 0⟩], [], []⟩ =
      ({ (⟨[⟨1, 1, "published", 0, 0⟩], [], []⟩ : Store) with
          comments := (⟨[⟨1, 1, "published", 0, 0⟩], [], []⟩ : Store).comments
            ++ [⟨1, "hi", 1, 7, storedParent none⟩] }, 201) :=
  (createComment_contract 7 "hi" 1 none 1
    ⟨[⟨1, 1, "published", 0, 0⟩], [], []⟩).2.2.2.1 (by decide) (by decide)
    (Or.inl (by decide))

/-- The reported liked flag is the negation of the prior liked state. -/
theorem toggleLike_snd (uid pid : Int) (s : Store) :
    (toggleLike uid pid s).2 = !(likedB s uid pid) := by
  cases h : likedB s uid pid <;> simp [toggleLike, h]

/-- After one toggle the liked state is the negation of the prior one:
the unlike branch removes every row of the pair, the like branch inserts
one. -/
theorem toggleLike_likedB (uid pid : Int) (s : Store) :
    likedB (toggleLike uid pid s).1 uid pid = !(likedB s uid pid) := by
  cases h : likedB s uid pid with
  | false =>
    have h' : s.likes.any (fun l =>
        decide (l.user_id = uid ∧ l.post_id = pid)) = false := h
    have key : toggleLike uid pid s =
        ({ s with
            likes := s.likes ++ [⟨uid, pid⟩],
            posts := s.posts.map (fun p =>
              if p.id = pid then { p with likes := p.likes + 1 } else p) },
         true) := by
      unfold toggleLike
      rw [h]
      rfl
    rw [key]
    show (s.likes ++ [(⟨uid, pid⟩ : LikeRow)]).any (fun l =>
      decide (l.user_id = uid ∧ l.post_id = pid)) = !false
    rw [List.any_append, h']
    simp
  | true =>
    have key : toggleLike uid pid s =
        ({ s with
            likes := s.likes.filter (fun l =>
              decide (¬(l.user_id = uid ∧ l.post_id = pid))),
            posts := s.posts.map (fun p =>
              if p.id = pid then { p with likes := p.likes - 1 } else p) },
         false) := by
      unfold toggleLike
      rw [h]
      rfl
    rw [key]
    show (s.likes.filter (fun l =>
        decide (¬(l.user_id = uid ∧ l.post_id = pid)))).any (fun l =>
      decide (l.user_id = uid ∧ l.post_id = pid)) = !true
    rw [Bool.not_true, List.any_eq_false]
    intro x hx
    rw [List.mem_filter] at hx
    simp at hx ⊢
    intro hxu
    rcases hx.2 with hc | hc
    · exact absurd hxu hc
    · exact hc

/-- After one toggle every post row carrying the target id has its likes
counter moved by -1 (unlike) or +1 (like); other rows are untouched. -/
theorem toggleLike_posts (uid pid : Int) (s : Store) :
    (toggleLike uid pid s).1.posts = s.posts.map (fun p =>
      if p.id = pid then
        { p with likes := p.likes + (if likedB s uid pid then (-1 : Int) else 1) }
      else p) := by
  cases h : likedB s uid pid with
  | true =>
    simp only [toggleLike, h, if_true]
    apply List.map_congr_left
    intro p _
    by_cases hid : p.id = pid <;> simp [hid, sub_eq_add_neg]
  | false =>
    simp [toggleLike, h]

/-- Two sequential toggles restore every post row, counters included. -/
theorem toggleLike_roundtrip_posts (uid pid : Int) (s : Store) :
    (toggleLike uid pid (toggleLike uid pid s).1).1.posts = s.posts := by
  rw [toggleLike_posts uid pid (toggleLike uid pid s).1,
    toggleLike_likedB uid pid s, toggleLike_posts uid pid s, List.map_map]
  conv_rhs => rw [← List.map_id s.posts]
  apply List.map_congr_left
  intro p _
  obtain ⟨pi, pa, ps, pv, pl⟩ := p
  by_cases hid : pi = pid
  · cases h : likedB s uid pid <;>
      simp [Function.comp, hid, h, add_neg_cancel_right, neg_add_cancel_right]
  · cases h : likedB s uid pid <;> simp [Function.comp, hid, h]

/-- Claim C5: the like toggle reports liked as the negation of the prior
row existence, flips the stored liked state accordingly, and moves the
likes counter of every post row with the target id by -1 when a row
existed and +1 otherwise; consequently two sequential toggles by the same
user on the same post restore the liked state and restore every post row
(so the likes counter returns to its original value). -/
theorem toggleLike_spec (uid pid : Int) (s : Store) :
    ((toggleLike uid pid s).2 = !(likedB s uid pid)) ∧
    (likedB (toggleLike uid pid s).1 uid pid = !(likedB s uid pid)) ∧
    ((toggleLike uid pid s).1.posts = s.posts.map (fun p =>
      if p.id = pid then
        { p with likes := p.likes + (if likedB s uid pid then (-1 : Int) else 1) }
      else p)) ∧
    ((toggleLike uid pid (toggleLike uid pid s).1).1.posts = s.posts) ∧
    (likedB (toggleLike uid pid (toggleLike uid pid s).1).1 uid pid =
      likedB s uid pid) :=
  ⟨toggleLike_snd uid pid s, toggleLike_likedB uid pid s,
   toggleLike_posts uid pid s, toggleLike_roundtrip_posts uid pid s, by
    rw [toggleLike_likedB, toggleLike_likedB, Bool.not_not]⟩

/-- The state change of a single-post fetch: every post row carrying the
fetched id gets exactly one more view, every other row is untouched. -/
theorem getPost_fst_posts (pid : Int) (s : Store) :
    (getPost pid s).1.posts = s.posts.map (fun p =>
      if p.id = pid then { p with views := p.views + 1 } else p) := by
  simp only [getPost]
  split <;> rfl

/-- Bumping the view counter changes neither the id nor the status, so
the published-post test is unaffected by the preceding UPDATE. -/
theorem viewBump_any (pid : Int) (l : List Post) :
    ((l.map (fun p =>
        if p.id = pid then { p with views := p.views + 1 } else p)).any
      (fun p => decide (p.id = pid ∧ p.status = "published"))) =
    (l.any (fun p => decide (p.id = pid ∧ p.status = "published"))) := by
  induction l with
  | nil => rfl
  | cons hd tl ih =>
    rw [List.map_cons, List.any_cons, List.any_cons, ih]
    have : (decide ((if hd.id = pid then
          { hd with views := hd.views + 1 } else hd).id = pid ∧
        (if hd.id = pid then
          { hd with views := hd.views + 1 } else hd).status = "published")) =
        decide (hd.id = pid ∧ hd.status = "published") := by
      rw [decide_eq_decide]
      by_cases hid : hd.id = pid <;> simp [hid]
    rw [this]

/-- The status answered by the single-post fetch tested against the
original store. -/
theorem getPost_snd (pid : Int) (s : Store) :
    (getPost pid s).2 = (if s.posts.any (fun p =>
        decide (p.id = pid ∧ p.status = "published")) then 200 else 404) := by
  simp only [getPost]
  rw [viewBump_any]
  cases h : s.posts.any (fun p =>
      decide (p.id = pid ∧ p.status = "published")) <;> simp [h]

/-- Claim C7: the single-post fetch takes no caller identity and first
runs the unconditional view UPDATE: every post row carrying the fetched
id gains exactly one view, a second fetch adds one more (no
deduplication), and the same increment happens whether the fetch then
answers 200 or 404 (the 404 answer arrives exactly when no published post
carries the id, e.g. for a draft post, whose row is still incremented). -/
theorem getPost_view_count (pid : Int) (s : Store) :
    ((getPost pid s).1.posts = s.posts.map (fun p =>
      if p.id = pid then { p with views := p.views + 1 } else p)) ∧
    ((getPost pid (getPost pid s).1).1.posts = s.posts.map (fun p =>
      if p.id = pid then { p with views := p.views + 2 } else p)) ∧
    (((getPost pid s).2 = 404) ↔
      ¬ ∃ p ∈ s.posts, p.id = pid ∧ p.status = "published") ∧
    (((getPost pid s).2 = 404) ∨ ((getPost pid s).2 = 200)) := by
  refine ⟨getPost_fst_posts pid s, ?_, ?_, ?_⟩
  · rw [getPost_fst_posts pid (getPost pid s).1, getPost_fst_posts pid s,
      List.map_map]
    apply List.map_congr_left
    intro p _
    obtain ⟨pi, pa, ps, pv, pl⟩ := p
    by_cases hid : pi = pid
    · simp only [Function.comp, hid, if_true, if_pos]
      have : pv + 1 + 1 = pv + 2 := by omega
      simp [this]
    · simp [Function.comp, hid]
  · rw [getPost_snd]
    cases hc : s.posts.any (fun p =>
        decide (p.id = pid ∧ p.status = "published")) with
    | true =>
      have hex : ∃ p ∈ s.posts, p.id = pid ∧ p.status = "published" := by
        rw [List.any_eq_true] at hc
        obtain ⟨p, hp, hd⟩ := hc
        exact ⟨p, hp, by simpa using hd⟩
      simp [hex]
    | false =>
      have hnex : ¬ ∃ p ∈ s.posts, p.id = pid ∧ p.status = "published" := by
        intro hex
        obtain ⟨p, hp, hd⟩ := hex
        have : s.posts.any (fun p =>
            decide (p.id = pid ∧ p.status = "published")) = true :=
          List.any_eq_true.mpr ⟨p, hp, by simpa using hd⟩
        rw [hc] at this
        exact absurd this (by simp)
      simp [hnex]
  · rw [getPost_snd]
    cases hc : s.posts.any (fun p =>
        decide (p.id = pid ∧ p.status = "published")) <;> simp

/-- Witness for C7: fetching post 1 from a store holding a draft post 1
bumps its views even though the fetch answers 404. -/
theorem getPost_view_count_witness :
    (getPost 1 ⟨[⟨1, 1, "draft", 0, 0⟩], [], []⟩).1.posts =
      (⟨[⟨1, 1, "draft", 0, 0⟩], [], []⟩ : Store).posts.map (fun p =>
        if p.id = 1 then { p with views := p.views + 1 } else p) :=
  (getPost_view_count 1 ⟨[⟨1, 1, "draft", 0, 0⟩], [], []⟩).1

/-- The no-cross-post invariant survives removing rows. -/
theorem noCrossPost_subset {l m : List Comment} (hsub : ∀ x ∈ m, x ∈ l)
    (hinv : noCrossPost l) : noCrossPost m :=
  fun c hc p hp hcp => hinv c (hsub c hc) p (hsub p hp) hcp

/-- The no-cross-post invariant survives any row rewrite that keeps the
id, parent_id and post_id columns. -/
theorem noCrossPost_map (l : List Comment) (f : Comment → Comment)
    (hf : ∀ c, (f c).id = c.id ∧ (f c).parent_id = c.parent_id ∧
      (f c).post_id = c.post_id)
    (hinv : noCrossPost l) : noCrossPost (l.map f) := by
  intro c hc p hp hcp
  rw [List.mem_map] at hc hp
  obtain ⟨c0, hc0, rfl⟩ := hc
  obtain ⟨p0, hp0, rfl⟩ := hp
  rw [(hf p0).2.2, (hf c0).2.2]
  apply hinv c0 hc0 p0 hp0
  rw [← (hf c0).2.1, hcp, (hf p0).1]

/-- The no-cross-post invariant survives appending a fresh row whose
parent, when present, is an existing comment of the same post. -/
theorem noCrossPost_insert (l : List Comment) (new : Comment)
    (hinv : noCrossPost l)
    (hnodup : (l.map (fun c => c.id)).Nodup)
    (hfresh : ∀ c ∈ l, c.parent_id ≠ some new.id)
    (hpar : ∀ q : Int, new.parent_id = some q →
      ∃ c ∈ l, c.id = q ∧ c.post_id = new.post_id) :
    noCrossPost (l ++ [new]) := by
  intro c hc p hp hcp
  rw [List.mem_append, List.mem_singleton] at hc hp
  rcases hc with hc | rfl
  · rcases hp with hp | rfl
    · exact hinv c hc p hp hcp
    · exact absurd hcp (hfresh c hc)
  · rcases hp with hp | rfl
    · obtain ⟨c0, hc0, hc0id, hc0post⟩ := hpar p.id hcp
      have hpc0 : p = c0 :=
        List.inj_on_of_nodup_map hnodup hp hc0 (by rw [hc0id])
      rw [hpc0]
      exact hc0post
    · rfl

/-- Claim C6: no comment ever designates an existing comment of another
post as its parent, and every comment-affecting operation preserves this:
the update handler rewrites only the content column, both delete handlers
only remove rows, and the create handler admits a nonzero parent only
after the same-post existence query succeeds (with the freshly allocated
id unique and never referenced by an existing parent_id, as the store
AUTO_INCREMENT guarantees). -/
theorem commentOps_preserve_invariant (s : Store)
    (hinv : noCrossPost s.comments) :
    (∀ uid cid content,
      noCrossPost (updateComment uid cid content s).1.comments) ∧
    (∀ uid role cid,
      noCrossPost (deleteComment uid role cid s).1.comments) ∧
    (∀ cid, noCrossPost (adminDeleteComment cid s).1.comments) ∧
    (∀ uid content post_id parent_id newId,
      (s.comments.map (fun c => c.id)).Nodup →
      (∀ c ∈ s.comments, c.parent_id ≠ some newId) →
      noCrossPost
        (createComment uid content post_id parent_id newId s).1.comments) := by
  have hsub : ∀ cid : Int, noCrossPost (cascadeDelete cid s.comments) :=
    fun cid =>
      noCrossPost_subset
        (fun x hx => (mem_cascadeDelete cid s.comments x hx).1) hinv
  refine ⟨?_, ?_, ?_, ?_⟩
  · intro uid cid content
    unfold updateComment
    split_ifs with h1 h2
    · exact hinv
    · apply noCrossPost_map _ _ ?_ hinv
      intro c
      by_cases hid : c.id = cid <;> simp [hid]
    · exact hinv
  · intro uid role cid
    unfold deleteComment
    split_ifs with h1
    · exact hsub cid
    · exact hinv
  · intro cid
    exact hsub cid
  · intro uid content post_id parent_id newId hnodup hfresh
    unfold createComment
    split_ifs with h1 h2 h3
    · exact hinv
    · exact hinv
    · exact hinv
    · apply noCrossPost_insert s.comments _ hinv hnodup hfresh
      intro q hq
      cases ht : optTruthy parent_id with
      | false =>
        exfalso
        unfold storedParent at hq
        rw [ht] at hq
        simp at hq
      | true =>
        have hv : parent_id = some q := by
          unfold storedParent at hq
          rw [ht] at hq
          simpa using hq
        have hany : s.comments.any (fun c =>
            decide (some c.id = parent_id ∧ c.post_id = post_id)) = true := by
          rw [ht] at h3
          simpa using h3
        rw [List.any_eq_true] at hany
        obtain ⟨c, hc, hdec⟩ := hany
        rw [hv] at hdec
        simp at hdec
        exact ⟨c, hc, hdec.1, hdec.2⟩

/-- Witness for C6: creating a reply to comment 1 of post 1 with fresh id
3 keeps the invariant in a store that satisfies it. -/
theorem commentOps_preserve_invariant_witness :
    noCrossPost (createComment 5 "x" 1 (some 1) 3
      ⟨[⟨1, 1, "published", 0, 0⟩],
       [⟨1, "a", 1, 1, none⟩, ⟨2, "b", 1, 1, some 1⟩], []⟩).1.comments :=
  (commentOps_preserve_invariant
    ⟨[⟨1, 1, "published", 0, 0⟩],
     [⟨1, "a", 1, 1, none⟩, ⟨2, "b", 1, 1, some 1⟩], []⟩
    (by decide)).2.2.2 5 "x" 1 (some 1) 3 (by decide) (by decide)
